import Mathlib

/-!
Verification development for the WebRTC peer-connection orchestration core of
the repository (class WebRTCService, plus the screen-share flow of the
useMediaStream hook).  The service's mutable fields (JS Maps keyed by peer id,
the local/screen media streams, the set of scheduled health-check intervals,
the list of signaling messages handed to the message callback) are embedded as
a state record, and each public operation is translated into a pure state
transformer.  JS Maps are modelled as association lists with first-match
lookup, replace-first set and delete; these agree observationally with JS Map
for every access pattern the service uses.
-/

namespace WebRTC

/-- First-match lookup, the observable behaviour of JS Map.get. -/
def mapGet {κ α : Type} [DecidableEq κ] : List (κ × α) → κ → Option α
  | [], _ => none
  | e :: rest, k => if e.1 = k then some e.2 else mapGet rest k

/-- JS Map.set: replace the value of the first entry with this key, else append. -/
def mapSet {κ α : Type} [DecidableEq κ] : List (κ × α) → κ → α → List (κ × α)
  | [], k, v => [(k, v)]
  | e :: rest, k, v => if e.1 = k then (k, v) :: rest else e :: mapSet rest k v

/-- JS Map.delete: drop the entries with this key. -/
def mapDelete {κ α : Type} [DecidableEq κ] (m : List (κ × α)) (k : κ) : List (κ × α) :=
  m.filter (fun e => e.1 ≠ k)

/-- Number of entries stored under a key (1 at most for states built by mapSet). -/
def countKey {κ α : Type} [DecidableEq κ] (m : List (κ × α)) (k : κ) : Nat :=
  (m.filter (fun e => e.1 = k)).length

/-- RTCPeerConnection.signalingState. -/
inductive SigState
  | stable
  | haveLocalOffer
  | haveRemoteOffer
  | closed
deriving DecidableEq, Repr

/-- RTCPeerConnection.connectionState. -/
inductive ConnState
  | new
  | connecting
  | connected
  | disconnected
  | failed
  | closed
deriving DecidableEq, Repr

/-- RTCPeerConnection.iceConnectionState (only the values the service inspects). -/
inductive IceConnState
  | iceNew
  | checking
  | connectedIce
  | failedIce
  | closedIce
deriving DecidableEq, Repr

/-- RTCIceCandidateInit: the three fields the service reads. -/
structure IceCandidateInit where
  candidate : Option String
  sdpMLineIndex : Option Nat
  sdpMid : Option String
deriving DecidableEq, Repr

/-- A sender-side media track reference (id plus kind), as seen through
RTCRtpSender.track. -/
structure STrack where
  id : Nat
  kind : String
deriving DecidableEq, Repr

/-- An RTCRtpTransceiver as far as the service inspects it: the kind of the
receiver track, the direction string, and the current sender track. -/
structure Transceiver where
  receiverKind : Option String
  direction : String
  senderTrack : Option STrack
deriving DecidableEq, Repr

/-- A local MediaStreamTrack (camera / microphone / screen). -/
structure MTrack where
  id : Nat
  kind : String
  enabled : Bool
deriving DecidableEq, Repr

/-- A MediaStream holding local tracks. -/
structure MStream where
  id : Nat
  tracks : List MTrack
deriving DecidableEq, Repr

/-- One native RTCPeerConnection, restricted to the state the service reads
and writes.  appliedCandidates records, in order, every candidate handed to
the native addIceCandidate (the per-candidate failure path only logs). -/
structure PC where
  signalingState : SigState
  connectionState : ConnState
  iceConnectionState : IceConnState
  remoteDescription : Option String
  localDescription : Option String
  appliedCandidates : List IceCandidateInit
  transceivers : List Transceiver
deriving DecidableEq, Repr

/-- A message handed to the onMessage callback (signaling send). -/
structure SentMsg where
  mtype : String
  dest : String
  isRenegotiation : Bool
deriving DecidableEq, Repr

/-- A hidden audio element appended to document.body for one viewer
(id attribute viewer-audio-peerId, srcObject the inbound stream). -/
structure DomElem where
  eid : Nat
  peerTag : String
  src : Nat
deriving DecidableEq, Repr

/-- The mutable state of one WebRTCService instance.  activeTimers is the set
of health-check interval ids currently scheduled in the runtime, while
healthCheckIntervals is the service's own Map from peer id to the interval id
it last stored; healthTimersCreatedLog is a ghost trace of every interval ever
created, used only in statements.  closedLog is a ghost trace of the peer ids
whose native connection had close() called on it. -/
structure WState where
  peerConnections : List (String × PC)
  dataChannels : List (String × Bool)
  healthCheckIntervals : List (String × Nat)
  activeTimers : List Nat
  healthTimersCreatedLog : List (String × Nat)
  nextTimerId : Nat
  queuedIceCandidates : List (String × List IceCandidateInit)
  processedCandidates : List (String × List String)
  viewerAudioTracks : List (String × Nat)
  viewerAudioElements : List (String × Nat)
  audioDom : List DomElem
  nextElemId : Nat
  localStream : Option MStream
  screenStream : Option MStream
  isFirefox : Bool
  hasMessageCallback : Bool
  sentMessages : List SentMsg
  closedLog : List String
deriving DecidableEq, Repr

/-- JS template interpolation of a possibly-undefined string. -/
def jsStr (o : Option String) : String :=
  match o with
  | some v => v
  | none => "undefined"

/-- JS template interpolation of a possibly-undefined number. -/
def jsNum (o : Option Nat) : String :=
  match o with
  | some n => toString n
  | none => "undefined"

/-- The dedup fingerprint built in addIceCandidate:
candidate-string, sdpMLineIndex and sdpMid joined by colons when the
candidate string is truthy, the literal null-candidate otherwise. -/
def candidateFingerprint (c : IceCandidateInit) : String :=
  match c.candidate with
  | some cstr =>
    if cstr = "" then "null-candidate"
    else cstr ++ ":" ++ jsNum c.sdpMLineIndex ++ ":" ++ jsStr c.sdpMid
  | none => "null-candidate"

/-- Whether JS parseInt on this string yields a number (not NaN): after
leading whitespace and an optional sign there must be at least one digit. -/
def jsParseIntOk (s : String) : Bool :=
  let t := s.trimLeft
  let t := if t.startsWith "-" || t.startsWith "+" then t.drop 1 else t
  match t.data with
  | [] => false
  | ch :: _ => ch.isDigit

/-- isValidFirefoxCandidate: the structural check the service applies to a
candidate string before handing it to Firefox. -/
def isValidFirefoxCandidate (cstr : String) : Bool :=
  let parts := cstr.splitOn " "
  if parts.length < 8 then false
  else
    let at_ := fun i => (parts.get? i).getD ""
    let hasFoundation := at_ 0 ≠ ""
    let hasComponent := at_ 1 ≠ "" ∧ jsParseIntOk (at_ 1)
    let hasProtocol := at_ 2 = "UDP" ∨ at_ 2 = "TCP"
    let hasPriority := at_ 3 ≠ "" ∧ jsParseIntOk (at_ 3)
    let hasAddress := at_ 4 ≠ ""
    let hasPort := at_ 5 ≠ "" ∧ jsParseIntOk (at_ 5)
    let hasType := at_ 6 = "typ"
    let hasCandType := at_ 7 = "host" ∨ at_ 7 = "srflx" ∨ at_ 7 = "prflx" ∨ at_ 7 = "relay"
    if hasFoundation ∧ hasComponent ∧ hasProtocol ∧ hasPriority ∧ hasAddress ∧
        hasPort ∧ hasType ∧ hasCandType then true else false

/-- WebRTCService.addIceCandidate.  Unknown peer: the candidate is dropped.
A fingerprint already processed for this peer: dropped.  Otherwise the
fingerprint is recorded and the candidate is queued when no remote
description is set, else handed to the native addIceCandidate (on Firefox,
after the structural validity check; the error/retry path only logs). -/
def addIceCandidate (s : WState) (peerId : String) (c : IceCandidateInit) : WState :=
  match mapGet s.peerConnections peerId with
  | none => s
  | some pc =>
    let fp := candidateFingerprint c
    let processed := (mapGet s.processedCandidates peerId).getD []
    if fp ∈ processed then s
    else
      let s1 := { s with processedCandidates := mapSet s.processedCandidates peerId (processed ++ [fp]) }
      if pc.remoteDescription = none then
        let q := (mapGet s1.queuedIceCandidates peerId).getD []
        { s1 with queuedIceCandidates := mapSet s1.queuedIceCandidates peerId (q ++ [c]) }
      else
        let skipFF : Bool :=
          s1.isFirefox && (match c.candidate with
            | some cstr => if cstr = "" then false else !(isValidFirefoxCandidate cstr)
            | none => false)
        if skipFF then s1
        else
          let pc2 := { pc with appliedCandidates := pc.appliedCandidates ++ [c] }
          { s1 with peerConnections := mapSet s1.peerConnections peerId pc2 }

/-- WebRTCService.processQueuedIceCandidates: if a non-empty queue exists and
the peer has a remote description, every queued candidate is handed to the
native addIceCandidate in queue order (per-candidate failures are logged and
the loop continues), then the queue entry is deleted. -/
def processQueuedIceCandidates (s : WState) (peerId : String) : WState :=
  match mapGet s.queuedIceCandidates peerId with
  | none => s
  | some q =>
    if q = [] then s
    else
      match mapGet s.peerConnections peerId with
      | none => s
      | some pc =>
        if pc.remoteDescription = none then s
        else
          let pc2 := { pc with appliedCandidates := pc.appliedCandidates ++ q }
          { s with
            peerConnections := mapSet s.peerConnections peerId pc2,
            queuedIceCandidates := mapDelete s.queuedIceCandidates peerId }

/-- The outcome of WebRTCService.handleAnswer: .ok means the answer was
applied; the ignored cases are the silent early returns; the threw cases are
the code paths that raise. -/
inductive AnswerOutcome
  | ok
  | ignoredStable
  | ignoredClosed
  | threwNotFound
  | threwWrongState (st : SigState)
deriving DecidableEq, Repr

/-- Whether a handleAnswer outcome is an exception escaping the method. -/
def AnswerOutcome.isThrow : AnswerOutcome → Bool
  | .threwNotFound => true
  | .threwWrongState _ => true
  | _ => false

/-- WebRTCService.handleAnswer.  Unknown peer id: throws.  Signaling state
stable or closed: silently ignored.  Any other state that is not
have-local-offer (i.e. have-remote-offer): throws.  In have-local-offer the
remote description is set (native transition to stable) and the queued
candidates are flushed. -/
def handleAnswer (s : WState) (peerId : String) (answerSdp : String) : WState × AnswerOutcome :=
  match mapGet s.peerConnections peerId with
  | none => (s, .threwNotFound)
  | some pc =>
    if pc.signalingState = SigState.haveLocalOffer then
      let pc1 := { pc with remoteDescription := some answerSdp, signalingState := SigState.stable }
      let s1 := { s with peerConnections := mapSet s.peerConnections peerId pc1 }
      (processQueuedIceCandidates s1 peerId, .ok)
    else if pc.signalingState = SigState.stable then (s, .ignoredStable)
    else if pc.signalingState = SigState.closed then (s, .ignoredClosed)
    else (s, .threwWrongState pc.signalingState)

/-- The outcome of WebRTCService.createAnswer. -/
inductive CreateAnswerOutcome
  | ok
  | threwNotFound
  | threwClosed
  | threwBadSetRemote
deriving DecidableEq, Repr

/-- WebRTCService.createAnswer.  Unknown peer: throws.  Closed: throws.  In
stable the remote offer is set (native transition to have-remote-offer) and
the queue is flushed; from have-local-offer the code also tries to set the
remote offer but the native setRemoteDescription rejects an offer in that
state and the catch block rethrows.  In have-remote-offer the remote
description is left as it is (the stable/have-local-offer guard fails) and the
answer is created against the old remote offer.  Finally the local answer is
set (native transition to stable). -/
def createAnswer (s : WState) (peerId : String) (offerSdp : String) : WState × CreateAnswerOutcome :=
  match mapGet s.peerConnections peerId with
  | none => (s, .threwNotFound)
  | some pc =>
    if pc.signalingState = SigState.closed then (s, .threwClosed)
    else if pc.signalingState = SigState.haveLocalOffer then (s, .threwBadSetRemote)
    else if pc.signalingState = SigState.stable then
      let pc1 := { pc with remoteDescription := some offerSdp, signalingState := SigState.haveRemoteOffer }
      let s1 := processQueuedIceCandidates { s with peerConnections := mapSet s.peerConnections peerId pc1 } peerId
      match mapGet s1.peerConnections peerId with
      | none => (s1, .threwNotFound)
      | some pc2 =>
        let pc3 := { pc2 with localDescription := some "answer", signalingState := SigState.stable }
        ({ s1 with peerConnections := mapSet s1.peerConnections peerId pc3 }, .ok)
    else
      let pc3 := { pc with localDescription := some "answer", signalingState := SigState.stable }
      ({ s with peerConnections := mapSet s.peerConnections peerId pc3 }, .ok)

/-- WebRTCService.renegotiate: create a fresh offer, set it locally, and (when
the message callback is installed) dispatch it flagged isRenegotiation. -/
def renegotiate (s : WState) (peerId : String) : WState :=
  match mapGet s.peerConnections peerId with
  | none => s
  | some pc =>
    let pc1 := { pc with localDescription := some "reneg-offer", signalingState := SigState.haveLocalOffer }
    let s1 := { s with peerConnections := mapSet s.peerConnections peerId pc1 }
    if s1.hasMessageCallback then
      { s1 with sentMessages := s1.sentMessages ++ [{ mtype := "webrtc-offer", dest := peerId, isRenegotiation := true }] }
    else s1

/-- The transceiver search in enableViewerAudio: receiver track of kind audio
with direction sendrecv or sendonly. -/
def viewerAudioPred (t : Transceiver) : Bool :=
  if t.receiverKind = some "audio" ∧ (t.direction = "sendrecv" ∨ t.direction = "sendonly") then
    true
  else false

/-- replaceTrack on the sender of the first transceiver matching the search. -/
def replaceFirstAudioSender : List Transceiver → Nat → List Transceiver
  | [], _ => []
  | t :: ts, tid =>
    if viewerAudioPred t then
      { t with senderTrack := some { id := tid, kind := "audio" } } :: ts
    else t :: replaceFirstAudioSender ts tid

/-- The transceiver created by pc.addTrack for a viewer audio track. -/
def newAudioSendTransceiver (tid : Nat) : Transceiver :=
  { receiverKind := some "audio", direction := "sendrecv", senderTrack := some { id := tid, kind := "audio" } }

/-- WebRTCService.enableViewerAudio: store the viewer track, then either
reuse an existing audio transceiver whose sender has no track (replaceTrack)
or add the track (new transceiver), and trigger renegotiation. -/
def enableViewerAudio (s : WState) (peerId : String) (tid : Nat) : WState :=
  match mapGet s.peerConnections peerId with
  | none => s
  | some pc =>
    let s1 := { s with viewerAudioTracks := mapSet s.viewerAudioTracks peerId tid }
    let pc1 :=
      match pc.transceivers.find? viewerAudioPred with
      | some t =>
        if t.senderTrack = none then
          { pc with transceivers := replaceFirstAudioSender pc.transceivers tid }
        else { pc with transceivers := pc.transceivers ++ [newAudioSendTransceiver tid] }
      | none => { pc with transceivers := pc.transceivers ++ [newAudioSendTransceiver tid] }
    renegotiate { s1 with peerConnections := mapSet s1.peerConnections peerId pc1 } peerId

/-- removeTrack on the first sender currently carrying this track. -/
def clearSenderWithTrack : List Transceiver → Nat → List Transceiver
  | [], _ => []
  | t :: ts, tid =>
    if t.senderTrack.any (fun st => st.id = tid) then { t with senderTrack := none } :: ts
    else t :: clearSenderWithTrack ts tid

/-- WebRTCService.disableViewerAudio: no-op without a connection or a stored
viewer track; otherwise remove the sender carrying the track, stop and forget
the track, and trigger renegotiation. -/
def disableViewerAudio (s : WState) (peerId : String) : WState :=
  match mapGet s.peerConnections peerId with
  | none => s
  | some pc =>
    match mapGet s.viewerAudioTracks peerId with
    | none => s
    | some tid =>
      let pc1 := { pc with transceivers := clearSenderWithTrack pc.transceivers tid }
      let s1 := { s with peerConnections := mapSet s.peerConnections peerId pc1,
                         viewerAudioTracks := mapDelete s.viewerAudioTracks peerId }
      renegotiate s1 peerId

/-- The audio branch of the pc.ontrack handler (broadcaster side): when local
broadcaster media exists and the event carries a stream, either create one
hidden audio element for this viewer (appended to the DOM, registered in the
map) or update the existing element's srcObject in place. -/
def ontrackAudio (s : WState) (peerId : String) (streams0 : Option Nat) : WState :=
  if s.localStream.isSome then
    match mapGet s.viewerAudioElements peerId, streams0 with
    | none, some st =>
      let eid := s.nextElemId
      { s with audioDom := s.audioDom ++ [{ eid := eid, peerTag := peerId, src := st }],
               viewerAudioElements := mapSet s.viewerAudioElements peerId eid,
               nextElemId := eid + 1 }
    | some eid, some st =>
      { s with audioDom := s.audioDom.map (fun e => if e.eid = eid then { e with src := st } else e) }
    | _, none => s
  else s

/-- WebRTCService.removePeer: close and drop the connection, close and drop
the data channel, clear the interval stored for this peer, drop the queued
candidates and the dedup set, tear the viewer audio element out of the DOM,
and forget the viewer audio track.  The has-guards around plain Map deletes
in the source are observationally the same as unconditional deletes. -/
def removePeer (s : WState) (peerId : String) : WState :=
  let s1 :=
    match mapGet s.peerConnections peerId with
    | some _ => { s with peerConnections := mapDelete s.peerConnections peerId,
                         closedLog := s.closedLog ++ [peerId] }
    | none => s
  let s2 := { s1 with dataChannels := mapDelete s1.dataChannels peerId }
  let s3 :=
    match mapGet s2.healthCheckIntervals peerId with
    | some tid => { s2 with activeTimers := s2.activeTimers.filter (fun x => x ≠ tid),
                            healthCheckIntervals := mapDelete s2.healthCheckIntervals peerId }
    | none => s2
  let s4 := { s3 with queuedIceCandidates := mapDelete s3.queuedIceCandidates peerId,
                      processedCandidates := mapDelete s3.processedCandidates peerId }
  let s5 :=
    match mapGet s4.viewerAudioElements peerId with
    | some eid => { s4 with audioDom := s4.audioDom.filter (fun e => e.eid ≠ eid),
                            viewerAudioElements := mapDelete s4.viewerAudioElements peerId }
    | none => s4
  { s5 with viewerAudioTracks := mapDelete s5.viewerAudioTracks peerId }

/-- The pc.onconnectionstatechange handler, run when the connection state of
the peer's connection becomes newState: it unconditionally creates a fresh
health-check interval and stores it in the map under this peer id
(overwriting whatever id was stored before), reports the state upward, and
calls removePeer when the new state is failed or disconnected. -/
def onConnectionStateChange (s : WState) (peerId : String) (newState : ConnState) : WState :=
  match mapGet s.peerConnections peerId with
  | none => s
  | some pc =>
    let s1 := { s with peerConnections := mapSet s.peerConnections peerId { pc with connectionState := newState } }
    let tid := s1.nextTimerId
    let s2 := { s1 with activeTimers := s1.activeTimers ++ [tid],
                        healthCheckIntervals := mapSet s1.healthCheckIntervals peerId tid,
                        healthTimersCreatedLog := s1.healthTimersCreatedLog ++ [(peerId, tid)],
                        nextTimerId := tid + 1 }
    if newState = ConnState.failed ∨ newState = ConnState.disconnected then removePeer s2 peerId
    else s2

/-- What one tick of the health-check interval does, as a function of the
connection state of the (captured) peer connection. -/
inductive TickEffect
  | polled
  | selfCancelled
  | idle
deriving DecidableEq, Repr

/-- The body of the health-check interval: poll stats while connected,
clear itself once the connection is failed or closed, otherwise do nothing. -/
def healthTickEffect (cs : ConnState) : TickEffect :=
  if cs = ConnState.connected then TickEffect.polled
  else if cs = ConnState.failed ∨ cs = ConnState.closed then TickEffect.selfCancelled
  else TickEffect.idle

/-- The connection-timeout callback armed in createPeerConnection: when the
connection is still connecting (or ICE still checking) when it fires, it calls
pc.restartIce() on Firefox and only logs elsewhere.  Returns whether
restartIce is invoked.  restartIce appears nowhere else in the service. -/
def connectionTimeoutRestartsIce (firefox : Bool) (cs : ConnState) (ice : IceConnState) : Bool :=
  if cs = ConnState.connecting ∨ ice = IceConnState.checking then
    if firefox then true else false
  else false

/-- getVideoTracks of a modelled MediaStream. -/
def videoTracksOf (ms : MStream) : List MTrack :=
  ms.tracks.filter (fun t => t.kind = "video")

/-- getAudioTracks of a modelled MediaStream. -/
def audioTracksOf (ms : MStream) : List MTrack :=
  ms.tracks.filter (fun t => t.kind = "audio")

/-- WebRTCService.createPeerConnection: build a fresh native connection (with
the local audio track and the active video track — screen share takes
priority — as senders when broadcasting, or sendrecv-audio/recvonly-video
transceivers for a viewer-side connection) and store it under peerId,
replacing whatever entry was there.  There is no duplicate check and the
previous connection, if any, is not closed.  The data-channel map and the
health-interval map are untouched at creation time. -/
def createPeerConnection (s : WState) (peerId : String) (isInitiator : Bool) : WState × PC :=
  let transceivers : List Transceiver :=
    match s.localStream with
    | some ls =>
      let activeVideoTrack : Option MTrack :=
        match s.screenStream with
        | some ss => (videoTracksOf ss).head?
        | none => (videoTracksOf ls).head?
      let audioPart : List Transceiver :=
        match (audioTracksOf ls).head? with
        | some a => [{ receiverKind := some "audio", direction := "sendrecv",
                       senderTrack := some { id := a.id, kind := "audio" } }]
        | none => []
      let videoPart : List Transceiver :=
        match activeVideoTrack with
        | some v => [{ receiverKind := some "video", direction := "sendrecv",
                       senderTrack := some { id := v.id, kind := "video" } }]
        | none => []
      audioPart ++ videoPart
    | none =>
      if isInitiator then []
      else
        [{ receiverKind := some "audio", direction := "sendrecv", senderTrack := none },
         { receiverKind := some "video", direction := "recvonly", senderTrack := none }]
  let pc : PC := { signalingState := SigState.stable, connectionState := ConnState.new,
                   iceConnectionState := IceConnState.iceNew, remoteDescription := none,
                   localDescription := none, appliedCandidates := [], transceivers := transceivers }
  ({ s with peerConnections := mapSet s.peerConnections peerId pc }, pc)

/-- WebRTCService.toggleVideo: only when a local stream exists and no screen
share is active, set the enabled flag of every local video track. -/
def toggleVideo (s : WState) (enabled : Bool) : WState :=
  match s.localStream with
  | some ls =>
    if s.screenStream.isNone then
      let ls2 := { ls with tracks := ls.tracks.map (fun t => if t.kind = "video" then { t with enabled := enabled } else t) }
      { s with localStream := some ls2 }
    else s
  | none => s

/-!
The screen-share swap (claim about outbound video senders) spans the service
and the useMediaStream hook and hinges on track aliasing: the one camera (or
screen) track object sits simultaneously in the local stream and in every
peer's video sender, so stopping it is visible through every sender.  The
model below therefore keeps a little heap of track liveness keyed by track id.
Observable instants are the states at await boundaries of the hook code. -/

/-- State of the screen-share flow: liveness per track id, each peer's video
sender (the sender object persists; only its track changes), the video tracks
of the local stream (streamRef.current in the hook is the same object as the
service's localStream), and the service's screenStream video track. -/
structure ShareSt where
  trackAlive : List (Nat × Bool)
  videoSenders : List (String × Nat)
  localVideoTracks : List Nat
  screenTrack : Option Nat
deriving DecidableEq, Repr

/-- Liveness of a track id (readyState live). -/
def aliveOf (st : ShareSt) (tid : Nat) : Bool :=
  (mapGet st.trackAlive tid).getD false

/-- WebRTCService.replaceVideoTrack: for every peer whose sender currently
carries a video track, sender.replaceTrack(new) — the sender is kept, only
its track is swapped; no sender is added or removed. -/
def shareReplaceVideoTrack (st : ShareSt) (tid : Nat) : ShareSt :=
  { st with videoSenders := st.videoSenders.map (fun e => (e.1, tid)) }

/-- WebRTCService.initializeScreenShare (the awaited first phase of the hook's
startScreenShare): acquire a live screen track, store the screen stream, and
replace the video track on every connection. -/
def startSharePhase1 (st : ShareSt) (screenId : Nat) : ShareSt :=
  let st1 := { st with trackAlive := mapSet st.trackAlive screenId true, screenTrack := some screenId }
  shareReplaceVideoTrack st1 screenId

/-- The synchronous tail of the hook's startScreenShare: remove the old
camera track from the local stream and stop it, add the screen track to the
local stream, and call replaceVideoTrack again. -/
def startShareSync (st : ShareSt) (screenId : Nat) : ShareSt :=
  let st1 :=
    match st.localVideoTracks.head? with
    | some oldId => { st with localVideoTracks := st.localVideoTracks.filter (fun x => x ≠ oldId),
                              trackAlive := mapSet st.trackAlive oldId false }
    | none => st
  shareReplaceVideoTrack { st1 with localVideoTracks := st1.localVideoTracks ++ [screenId] } screenId

/-- WebRTCService.stopScreenShare (called synchronously at the start of the
hook's stopScreenShare): stop the screen tracks, drop the screen stream, and
replace every sender's video track with the first video track of the local
stream — which, after the hook's start flow, is the just-stopped screen
track. -/
def serviceStopScreenShare (st : ShareSt) : ShareSt :=
  match st.screenTrack with
  | none => st
  | some sid =>
    let st1 := { st with trackAlive := mapSet st.trackAlive sid false, screenTrack := none }
    match st1.localVideoTracks.head? with
    | some vid => shareReplaceVideoTrack st1 vid
    | none => st1

/-- The tail of the hook's stopScreenShare after getUserMedia resolves: a
fresh live camera track replaces the old screen track in the local stream and
in every sender. -/
def stopShareSync (st : ShareSt) (newCamId : Nat) : ShareSt :=
  let st0 := { st with trackAlive := mapSet st.trackAlive newCamId true }
  let st1 :=
    match st0.localVideoTracks.head? with
    | some oldId => { st0 with localVideoTracks := st0.localVideoTracks.filter (fun x => x ≠ oldId),
                               trackAlive := mapSet st0.trackAlive oldId false }
    | none => st0
  shareReplaceVideoTrack { st1 with localVideoTracks := st1.localVideoTracks ++ [newCamId] } newCamId

/-- Number of video sender slots a peer holds. -/
def senderSlotCount (st : ShareSt) (p : String) : Nat :=
  countKey st.videoSenders p

/-- Number of video senders of a peer whose current track is live — the
senders actually putting media on the wire. -/
def liveSenderCount (st : ShareSt) (p : String) : Nat :=
  (st.videoSenders.filter (fun e => e.1 = p && aliveOf st e.2)).length

/-- Messages counted by the renegotiation claims: offers flagged
isRenegotiation addressed to this peer. -/
def renegCount (s : WState) (p : String) : Nat :=
  (s.sentMessages.filter (fun m => m.mtype = "webrtc-offer" && m.dest = p && m.isRenegotiation)).length

/-- DOM audio sinks tagged with this viewer's peer id. -/
def domCountFor (s : WState) (p : String) : Nat :=
  (s.audioDom.filter (fun e => e.peerTag = p)).length

/-- A freshly constructed native connection with no media. -/
def basePC : PC :=
  { signalingState := SigState.stable, connectionState := ConnState.new,
    iceConnectionState := IceConnState.iceNew, remoteDescription := none,
    localDescription := none, appliedCandidates := [], transceivers := [] }

/-- A service instance with no peers and no media. -/
def baseState : WState :=
  { peerConnections := [], dataChannels := [], healthCheckIntervals := [],
    activeTimers := [], healthTimersCreatedLog := [], nextTimerId := 0,
    queuedIceCandidates := [], processedCandidates := [], viewerAudioTracks := [],
    viewerAudioElements := [], audioDom := [], nextElemId := 0,
    localStream := none, screenStream := none, isFirefox := false,
    hasMessageCallback := false, sentMessages := [], closedLog := [] }

/-- A connection that has sent its local offer and awaits the answer. -/
def c1PC : PC := { basePC with signalingState := SigState.haveLocalOffer }

/-- One peer p mid-handshake, nothing queued or processed yet. -/
def c1State : WState := { baseState with peerConnections := [("p", c1PC)] }

/-- Two distinct candidates delivered early. -/
def c1CandA : IceCandidateInit :=
  { candidate := some "candidate-a 1 UDP 2122 192.168.0.2 50000 typ host",
    sdpMLineIndex := some 0, sdpMid := some "0" }

/-- Second early candidate. -/
def c1CandB : IceCandidateInit :=
  { candidate := some "candidate-b 1 UDP 2122 192.168.0.2 50001 typ host",
    sdpMLineIndex := some 0, sdpMid := some "0" }

/-- The early arrival sequence of the ICE-queue witness. -/
def c1Cands : List IceCandidateInit := [c1CandA, c1CandB]

/-- An established connection for peer p. -/
def c2OldPC : PC := { basePC with connectionState := ConnState.connected }

/-- A registry already holding a connection for p. -/
def c2State : WState := { baseState with peerConnections := [("p", c2OldPC)] }

/-- A connection that holds a remote offer (mid incoming negotiation). -/
def c3PC : PC := { basePC with signalingState := SigState.haveRemoteOffer }

/-- One peer x in have-remote-offer; no entry for peer y. -/
def c3State : WState := { baseState with peerConnections := [("x", c3PC)] }

/-- A viewer-side connection: sendrecv audio and recvonly video transceivers,
neither with a sender track. -/
def c5PC : PC :=
  { basePC with transceivers :=
      [{ receiverKind := some "audio", direction := "sendrecv", senderTrack := none },
       { receiverKind := some "video", direction := "recvonly", senderTrack := none }] }

/-- A session with peer v connected, the signaling callback installed and
local broadcaster media present. -/
def c5State : WState :=
  { baseState with peerConnections := [("v", c5PC)], hasMessageCallback := true,
                   localStream := some { id := 5, tracks := [] } }

/-- The rapid enable/disable/enable sequence on peer v. -/
def c5Run : WState :=
  enableViewerAudio (disableViewerAudio (enableViewerAudio c5State "v" 101) "v") "v" 102

/-- One registered peer p, no timers yet. -/
def c6State : WState := { baseState with peerConnections := [("p", basePC)] }

/-- Two connection-state changes for p (each creating a health interval),
then removePeer. -/
def c6Run : WState :=
  removePeer (onConnectionStateChange (onConnectionStateChange c6State "p" ConnState.connecting)
    "p" ConnState.connected) "p"

/-- The candidate redelivered in the dedup witness. -/
def c7Cand : IceCandidateInit :=
  { candidate := some "candidate-a 1 UDP 2122 192.168.0.2 50000 typ host",
    sdpMLineIndex := some 0, sdpMid := some "0" }

/-- A state in which c7Cand has already been processed for peer p. -/
def c7State : WState :=
  { baseState with peerConnections := [("p", basePC)],
                   processedCandidates := [("p", [candidateFingerprint c7Cand])] }

/-- One connected peer q whose sole video sender carries the live camera
track 1; the local stream holds that track; no screen share. -/
def c8St : ShareSt :=
  { trackAlive := [(1, true)], videoSenders := [("q", 1)], localVideoTracks := [1],
    screenTrack := none }

/-- The screen-share round trip on c8St: start (screen track 2), then stop up
to the await on getUserMedia — the observable instant before the replacement
camera track 3 exists. -/
def c8Mid : ShareSt := serviceStopScreenShare (startShareSync (startSharePhase1 c8St 2) 2)

/-- The state after the stop flow completes with fresh camera track 3. -/
def c8End : ShareSt := stopShareSync c8Mid 3

/-- A session with local camera video while a screen share is active. -/
def c10State : WState :=
  { baseState with
      localStream := some { id := 1, tracks := [{ id := 10, kind := "video", enabled := true }] },
      screenStream := some { id := 2, tracks := [{ id := 20, kind := "video", enabled := true }] } }

/-- One peer z in the stable state (for the answer-drop witness). -/
def c3StableState : WState := { baseState with peerConnections := [("z", basePC)] }

/-- A state with one registered health interval (id 0) for peer p. -/
def c6WitState : WState :=
  { baseState with healthCheckIntervals := [("p", 0)], activeTimers := [0] }

/-- Delivering a whole arrival sequence of candidates for one peer. -/
def deliverAll (s : WState) (p : String) (cs : List IceCandidateInit) : WState :=
  cs.foldl (fun t c => addIceCandidate t p c) s

/-- Appending to an optional queue entry, the way repeated addIceCandidate
calls grow a per-peer queue (the entry is created on first use). -/
def optExtend {α : Type} (o : Option (List α)) (l : List α) : Option (List α) :=
  match l with
  | [] => o
  | _ => some (o.getD [] ++ l)

/-- The renegotiation message renegotiate hands to the signaling callback. -/
def renegMsg (p : String) : SentMsg :=
  { mtype := "webrtc-offer", dest := p, isRenegotiation := true }

/-- The state enableViewerAudio hands to renegotiate: viewer track stored and
the connection updated with the new or reused audio sender. -/
def enableCoreState (s : WState) (p : String) (tid : Nat) (pc1 : PC) : WState :=
  { s with viewerAudioTracks := mapSet s.viewerAudioTracks p tid,
           peerConnections := mapSet s.peerConnections p pc1 }

/-- Trace state after the awaited first phase of startScreenShare. -/
def shareTrace1 (st : ShareSt) (screenId : Nat) : ShareSt :=
  startSharePhase1 st screenId

/-- Trace state after startScreenShare completes. -/
def shareTrace2 (st : ShareSt) (screenId : Nat) : ShareSt :=
  startShareSync (shareTrace1 st screenId) screenId

/-- Trace state while stopScreenShare awaits getUserMedia: the service part
already ran; the replacement camera track does not exist yet. -/
def shareTrace3 (st : ShareSt) (screenId : Nat) : ShareSt :=
  serviceStopScreenShare (shareTrace2 st screenId)

/-- Trace state after stopScreenShare completes with the fresh camera. -/
def shareTrace4 (st : ShareSt) (screenId newCamId : Nat) : ShareSt :=
  stopShareSync (shareTrace3 st screenId) newCamId

/-! ## Lemmas about the map embedding -/

@[simp]
theorem mapGet_mapSet_self {κ α : Type} [DecidableEq κ] (m : List (κ × α)) (k : κ) (v : α) :
    mapGet (mapSet m k v) k = some v := by
  induction m with
  | nil => simp [mapGet, mapSet]
  | cons e rest ih =>
    by_cases h : e.1 = k
    · simp [mapSet, h, mapGet]
    · simp [mapSet, h, mapGet, ih]

theorem mapGet_mapSet_ne {κ α : Type} [DecidableEq κ] (m : List (κ × α)) (k k2 : κ) (v : α)
    (h : k2 ≠ k) : mapGet (mapSet m k v) k2 = mapGet m k2 := by
  have hne : ¬ k = k2 := fun hh => h hh.symm
  induction m with
  | nil => simp [mapGet, mapSet, hne]
  | cons e rest ih =>
    by_cases he : e.1 = k
    · have he2 : ¬ e.1 = k2 := by rw [he]; exact hne
      simp [mapSet, he, mapGet, hne, he2]
    · simp [mapSet, he, mapGet, ih]

@[simp]
theorem mapGet_mapDelete_self {κ α : Type} [DecidableEq κ] (m : List (κ × α)) (k : κ) :
    mapGet (mapDelete m k) k = none := by
  induction m with
  | nil => simp [mapGet, mapDelete]
  | cons e rest ih =>
    by_cases h : e.1 = k
    · simpa [mapDelete, h] using ih
    · simpa [mapDelete, h, mapGet] using ih

@[simp]
theorem countKey_cons {κ α : Type} [DecidableEq κ] (e : κ × α) (l : List (κ × α)) (k : κ) :
    countKey (e :: l) k = (if e.1 = k then 1 else 0) + countKey l k := by
  by_cases h : e.1 = k
  · simp [countKey, List.filter_cons, h]
    omega
  · simp [countKey, List.filter_cons, h]

theorem countKey_mapSet {κ α : Type} [DecidableEq κ] (m : List (κ × α)) (k : κ) (v : α) :
    countKey (mapSet m k v) k = max (countKey m k) 1 := by
  induction m with
  | nil => simp [countKey, mapSet]
  | cons e rest ih =>
    by_cases h : e.1 = k
    · simp [mapSet, h]
    · simp [mapSet, h, ih]

/-! ## Behaviour of addIceCandidate -/

theorem addIce_pc_none (s : WState) (p : String) (c : IceCandidateInit)
    (h : mapGet s.peerConnections p = none) : addIceCandidate s p c = s := by
  simp [addIceCandidate, h]

theorem addIce_processed_drop (s : WState) (p : String) (c : IceCandidateInit)
    (h : candidateFingerprint c ∈ (mapGet s.processedCandidates p).getD []) :
    addIceCandidate s p c = s := by
  unfold addIceCandidate
  cases hpc : mapGet s.peerConnections p with
  | none => rfl
  | some pc => simp [h]

theorem addIce_processed_grows (s : WState) (p : String) (c : IceCandidateInit) (pc : PC)
    (hpc : mapGet s.peerConnections p = some pc)
    (hm : candidateFingerprint c ∉ (mapGet s.processedCandidates p).getD []) :
    mapGet (addIceCandidate s p c).processedCandidates p
      = some ((mapGet s.processedCandidates p).getD [] ++ [candidateFingerprint c]) ∧
    (mapGet (addIceCandidate s p c).peerConnections p).isSome = true := by
  unfold addIceCandidate
  rw [hpc]
  simp only [if_neg hm]
  by_cases hrd : pc.remoteDescription = none
  · simp [if_pos hrd, mapGet_mapSet_self, hpc]
  · simp only [if_neg hrd]
    split
    · simp [mapGet_mapSet_self, hpc]
    · simp [mapGet_mapSet_self, hpc]

/-- C7: a candidate whose dedup key (candidate string, sdpMLineIndex, sdpMid
— the three components of the fingerprint, and the three fields of the
candidate record) was already processed for this peer is dropped silently,
with no change at all to the service state; hence redelivering any candidate
to addIceCandidate a second time is observationally a no-op. -/
theorem dedupIdemC7 (s : WState) (p : String) (c : IceCandidateInit) :
    (candidateFingerprint c ∈ (mapGet s.processedCandidates p).getD [] →
      addIceCandidate s p c = s) ∧
    addIceCandidate (addIceCandidate s p c) p c = addIceCandidate s p c := by
  refine ⟨fun h => addIce_processed_drop s p c h, ?_⟩
  cases hpc : mapGet s.peerConnections p with
  | none =>
    rw [addIce_pc_none s p c hpc]
    exact addIce_pc_none s p c hpc
  | some pc =>
    by_cases hm : candidateFingerprint c ∈ (mapGet s.processedCandidates p).getD []
    · rw [addIce_processed_drop s p c hm]
      exact addIce_processed_drop s p c hm
    · have hg := addIce_processed_grows s p c pc hpc hm
      apply addIce_processed_drop
      rw [hg.1]
      simp

/-- C7 witness: the concrete redelivered candidate is dropped with the state
unchanged. -/
theorem dedupIdemC7w : addIceCandidate c7State "p" c7Cand = c7State :=
  (dedupIdemC7 c7State "p" c7Cand).1 (by decide)

/-- C10: while a screen share is active (screenStream non-null), toggleVideo
is a no-op: the whole service state, including every local video track's
enabled flag, is unchanged. -/
theorem toggleVideoShareC10 (s : WState) (enabled : Bool) (ss : MStream)
    (hscreen : s.screenStream = some ss) : toggleVideo s enabled = s := by
  unfold toggleVideo
  cases hls : s.localStream with
  | none => rfl
  | some ls => simp [hscreen]

/-- C10 witness at a concrete mid-share state. -/
theorem toggleVideoShareC10w : toggleVideo c10State false = c10State :=
  toggleVideoShareC10 c10State false
    { id := 2, tracks := [{ id := 20, kind := "video", enabled := true }] } rfl

/-- C4 counterexample: the connection-setup timeout armed inside
createPeerConnection fires on a Firefox session whose connection is still
connecting and invokes pc.restartIce() — an automatic ICE restart with no
caller trigger, contradicting the claim that the core never restarts ICE on
its own. -/
theorem iceRestartC4cex :
    connectionTimeoutRestartsIce true ConnState.connecting IceConnState.iceNew = true := by
  decide

/-- C4 amended: on non-Firefox browsers the timeout never restarts ICE (and
restartIce appears nowhere else in the service); on Firefox it restarts ICE
exactly when the connection is still connecting or ICE is still checking when
the timeout fires. -/
theorem iceRestartC4 (cs : ConnState) (ice : IceConnState) :
    connectionTimeoutRestartsIce false cs ice = false ∧
    (connectionTimeoutRestartsIce true cs ice = true ↔
      (cs = ConnState.connecting ∨ ice = IceConnState.checking)) := by
  cases cs <;> cases ice <;> decide

/-- C4 witness: a non-Firefox timeout on a stuck connection does not restart
ICE. -/
theorem iceRestartC4w :
    connectionTimeoutRestartsIce false ConnState.connecting IceConnState.checking = false :=
  (iceRestartC4 ConnState.connecting IceConnState.checking).1

/-- C3 counterexample: handleAnswer throws for a peer in have-remote-offer
and throws for an unknown peer id — both are states other than
have-local-offer for which the claim promised a silent no-op. -/
theorem answerNoopC3cex :
    (handleAnswer c3State "x" "a").2 = AnswerOutcome.threwWrongState SigState.haveRemoteOffer ∧
    (handleAnswer c3State "x" "a").2.isThrow = true ∧
    (handleAnswer c3State "y" "a").2 = AnswerOutcome.threwNotFound ∧
    (handleAnswer c3State "y" "a").2.isThrow = true := by
  decide

/-- C3 amended: handleAnswer is a silent, non-throwing no-op exactly on the
early-return paths — a known peer in the stable or closed signaling state
(duplicate or late answer): the state is unchanged, no exception is raised,
and the answer is not applied.  Unknown peer ids and have-remote-offer throw
instead (see the counterexample). -/
theorem answerNoopC3 (s : WState) (p a : String) (pc : PC)
    (hpc : mapGet s.peerConnections p = some pc)
    (hsig : pc.signalingState = SigState.stable ∨ pc.signalingState = SigState.closed) :
    (handleAnswer s p a).1 = s ∧ (handleAnswer s p a).2.isThrow = false ∧
    (handleAnswer s p a).2 ≠ AnswerOutcome.ok := by
  rcases hsig with h | h <;> simp [handleAnswer, hpc, h, AnswerOutcome.isThrow]

/-- C3 witness: a duplicate answer for a stable peer is dropped silently. -/
theorem answerNoopC3w :
    (handleAnswer c3StableState "z" "a").1 = c3StableState ∧
    (handleAnswer c3StableState "z" "a").2.isThrow = false ∧
    (handleAnswer c3StableState "z" "a").2 ≠ AnswerOutcome.ok :=
  answerNoopC3 c3StableState "z" "a" basePC rfl (Or.inl rfl)

/-- C2 counterexample: with a connection for p already registered (and no
removePeer in between), a second createPeerConnection for p is not rejected:
it succeeds, silently replaces the registry entry with a fresh connection,
and never closes the old one. -/
theorem createRejectC2cex :
    (createPeerConnection c2State "p" true).1.peerConnections
        = [("p", (createPeerConnection c2State "p" true).2)] ∧
    (createPeerConnection c2State "p" true).2 ≠ c2OldPC ∧
    (createPeerConnection c2State "p" true).1.closedLog = [] := by
  decide

/-- C2 amended: createPeerConnection never rejects; it stores the new
connection under peerId, replacing any previous entry without closing it,
leaves every other peer's entry alone, and keeps the registry at no more than
one entry per peer id. -/
theorem createReplaceC2 (s : WState) (p : String) (ini : Bool)
    (huniq : countKey s.peerConnections p ≤ 1) :
    mapGet (createPeerConnection s p ini).1.peerConnections p
        = some (createPeerConnection s p ini).2 ∧
    (∀ q, q ≠ p → mapGet (createPeerConnection s p ini).1.peerConnections q
        = mapGet s.peerConnections q) ∧
    (createPeerConnection s p ini).1.closedLog = s.closedLog ∧
    countKey (createPeerConnection s p ini).1.peerConnections p ≤ 1 := by
  refine ⟨?_, ?_, ?_, ?_⟩
  · simp [createPeerConnection, mapGet_mapSet_self]
  · intro q hq
    simp [createPeerConnection, mapGet_mapSet_ne _ _ _ _ hq]
  · rfl
  · show countKey (mapSet s.peerConnections p _) p ≤ 1
    rw [countKey_mapSet]
    exact max_le huniq (le_refl 1)

/-- C2 witness: the replacing create at the concrete duplicated state. -/
theorem createReplaceC2w :
    mapGet (createPeerConnection c2State "p" true).1.peerConnections "p"
      = some (createPeerConnection c2State "p" true).2 :=
  (createReplaceC2 c2State "p" true (by decide)).1

/-! ## Behaviour of removePeer -/

theorem removePeer_pcs_get (s : WState) (p : String) :
    mapGet (removePeer s p).peerConnections p = none := by
  simp only [removePeer]
  split <;> split <;> split <;> simp_all [mapGet_mapDelete_self]

theorem removePeer_channels_get (s : WState) (p : String) :
    mapGet (removePeer s p).dataChannels p = none := by
  simp only [removePeer]
  split <;> split <;> split <;> simp [mapGet_mapDelete_self]

theorem removePeer_health_get (s : WState) (p : String) :
    mapGet (removePeer s p).healthCheckIntervals p = none := by
  simp only [removePeer]
  split <;> split <;> split <;> simp_all [mapGet_mapDelete_self]

theorem removePeer_queued_get (s : WState) (p : String) :
    mapGet (removePeer s p).queuedIceCandidates p = none := by
  simp only [removePeer]
  split <;> split <;> split <;> simp [mapGet_mapDelete_self]

theorem removePeer_processed_get (s : WState) (p : String) :
    mapGet (removePeer s p).processedCandidates p = none := by
  simp only [removePeer]
  split <;> split <;> split <;> simp [mapGet_mapDelete_self]

theorem removePeer_elems_get (s : WState) (p : String) :
    mapGet (removePeer s p).viewerAudioElements p = none := by
  simp only [removePeer]
  split <;> split <;> split <;> simp_all [mapGet_mapDelete_self]

theorem removePeer_tracks_get (s : WState) (p : String) :
    mapGet (removePeer s p).viewerAudioTracks p = none := by
  simp only [removePeer]
  split <;> split <;> split <;> simp [mapGet_mapDelete_self]

theorem removePeer_closes (s : WState) (p : String) (pc : PC)
    (h : mapGet s.peerConnections p = some pc) :
    p ∈ (removePeer s p).closedLog := by
  simp only [removePeer, h]
  split <;> split <;> simp

theorem removePeer_timer (s : WState) (p : String) (tid : Nat)
    (h : mapGet s.healthCheckIntervals p = some tid) :
    tid ∉ (removePeer s p).activeTimers := by
  cases h1 : mapGet s.peerConnections p <;>
    simp only [removePeer, h1, h] <;> split <;> simp [List.mem_filter]

/-- C6 counterexample: two connection-state changes each create a health
interval for p (interval ids 0 and 1, both recorded in the ghost creation
log), the service map keeps only the last one, and removePeer cancels only
that one — interval 0, created for p, is still scheduled after the removal,
so not every interval ever created for the peer is cancelled at the moment
the peer is removed. -/
theorem timerCancelC6cex :
    ("p", 0) ∈ c6Run.healthTimersCreatedLog ∧ (0 : Nat) ∈ c6Run.activeTimers ∧
    mapGet c6Run.peerConnections "p" = none := by
  decide

/-- C6 amended: removePeer cancels the health interval currently registered
for the peer (the most recently created one) and deletes its map entry;
intervals created by earlier state changes were overwritten in the map and
stay scheduled past the removal, but a tick of any leaked interval on the
now-closed connection performs no stats poll and clears the interval
itself. -/
theorem timerCancelC6 (s : WState) (p : String) (tid : Nat)
    (hmap : mapGet s.healthCheckIntervals p = some tid) :
    mapGet (removePeer s p).healthCheckIntervals p = none ∧
    tid ∉ (removePeer s p).activeTimers ∧
    healthTickEffect ConnState.closed = TickEffect.selfCancelled ∧
    healthTickEffect ConnState.closed ≠ TickEffect.polled :=
  ⟨removePeer_health_get s p, removePeer_timer s p tid hmap, by decide, by decide⟩

/-- C6 witness: the registered interval is gone after removePeer. -/
theorem timerCancelC6w : (0 : Nat) ∉ (removePeer c6WitState "p").activeTimers :=
  (timerCancelC6 c6WitState "p" 0 rfl).2.1

/-- C9: when the connection state of a registered peer transitions to
disconnected, the state-change handler removes the peer entirely — the
native connection is closed and every per-peer registry entry (connection,
data channel, health-interval map entry, candidate queue, dedup set, audio
sink, viewer track) is deleted; disconnected is treated exactly like failed,
with no grace period. -/
theorem disconnectRemovesC9 (s : WState) (p : String) (pc : PC)
    (hpc : mapGet s.peerConnections p = some pc) :
    mapGet (onConnectionStateChange s p ConnState.disconnected).peerConnections p = none ∧
    p ∈ (onConnectionStateChange s p ConnState.disconnected).closedLog ∧
    mapGet (onConnectionStateChange s p ConnState.disconnected).dataChannels p = none ∧
    mapGet (onConnectionStateChange s p ConnState.disconnected).healthCheckIntervals p = none ∧
    mapGet (onConnectionStateChange s p ConnState.disconnected).queuedIceCandidates p = none ∧
    mapGet (onConnectionStateChange s p ConnState.disconnected).processedCandidates p = none ∧
    mapGet (onConnectionStateChange s p ConnState.disconnected).viewerAudioElements p = none ∧
    mapGet (onConnectionStateChange s p ConnState.disconnected).viewerAudioTracks p = none := by
  simp only [onConnectionStateChange, hpc]
  refine ⟨removePeer_pcs_get _ _, ?_, removePeer_channels_get _ _, removePeer_health_get _ _,
    removePeer_queued_get _ _, removePeer_processed_get _ _, removePeer_elems_get _ _,
    removePeer_tracks_get _ _⟩
  exact removePeer_closes _ p _ (mapGet_mapSet_self _ _ _)

/-- C9 witness at a concrete one-peer session. -/
theorem disconnectRemovesC9w :
    mapGet (onConnectionStateChange c6State "p" ConnState.disconnected).peerConnections "p" = none ∧
    "p" ∈ (onConnectionStateChange c6State "p" ConnState.disconnected).closedLog :=
  ⟨(disconnectRemovesC9 c6State "p" basePC rfl).1,
   (disconnectRemovesC9 c6State "p" basePC rfl).2.1⟩

/-! ## Lemmas about the screen-share sender model -/

theorem mapGet_setAll {κ α β : Type} [DecidableEq κ] (l : List (κ × α)) (v : β) (k : κ) :
    mapGet (l.map (fun e => (e.1, v))) k = (mapGet l k).map (fun _ => v) := by
  induction l with
  | nil => simp [mapGet]
  | cons e rest ih => by_cases h : e.1 = k <;> simp [mapGet, h, ih]

theorem countKey_setAll {κ α β : Type} [DecidableEq κ] (l : List (κ × α)) (v : β) (k : κ) :
    countKey (l.map (fun e => (e.1, v))) k = countKey l k := by
  induction l with
  | nil => rfl
  | cons e rest ih => by_cases h : e.1 = k <;> simp [h, ih]

theorem filterLive_le_countKey (l : List (String × Nat)) (p : String) (al : Nat → Bool) :
    (l.filter (fun e => e.1 = p && al e.2)).length ≤ countKey l p := by
  induction l with
  | nil => simp [countKey]
  | cons e rest ih =>
    by_cases h : e.1 = p <;> cases ha : al e.2 <;>
      simp [List.filter_cons, h, ha] <;> omega

theorem liveCount_of_uniq (l : List (String × Nat)) (p : String) (v : Nat) (al : Nat → Bool)
    (hget : mapGet l p = some v) (hcnt : countKey l p = 1) :
    (l.filter (fun e => e.1 = p && al e.2)).length = if al v then 1 else 0 := by
  induction l with
  | nil => cases hget
  | cons e rest ih =>
    by_cases h : e.1 = p
    · have hv : e.2 = v := by
        have := hget
        simp [mapGet, h] at this
        exact this
      have hc0 : countKey rest p = 0 := by
        have := hcnt
        simp [h] at this
        omega
      have hz : (rest.filter (fun e => e.1 = p && al e.2)).length = 0 := by
        have hle := filterLive_le_countKey rest p al
        omega
      cases ha : al v <;> simp [List.filter_cons, h, hv, ha, hz]
    · have hget2 : mapGet rest p = some v := by
        have := hget
        simpa [mapGet, h] using this
      have hcnt2 : countKey rest p = 1 := by
        have := hcnt
        simpa [h] using this
      simp [List.filter_cons, h, ih hget2 hcnt2]

theorem liveCount_setAll (l : List (String × Nat)) (v : Nat) (al : Nat → Bool) (p : String) :
    ((l.map (fun e => (e.1, v))).filter (fun e => e.1 = p && al e.2)).length
      = if al v then countKey l p else 0 := by
  induction l with
  | nil => cases h : al v <;> simp [h, countKey]
  | cons e rest ih =>
    by_cases h : e.1 = p <;> cases hv : al v <;>
      (simp [List.filter_cons, h, hv, ih]; try omega)

theorem liveCount_setAll2 (l : List (String × Nat)) (v : Nat) (A : List (Nat × Bool)) (p : String) :
    ((l.map (fun e => (e.1, v))).filter
        (fun e => e.1 = p && (mapGet A e.2).getD false)).length
      = if (mapGet A v).getD false then countKey l p else 0 :=
  liveCount_setAll l v (fun n => (mapGet A n).getD false) p

/-- C8 counterexample: run the screen-share round trip on a peer that starts
with a live camera sender.  At the observable instant c8Mid — after the
service half of stopScreenShare stopped the screen track and replaced every
sender's track with the first local video track (the stopped screen track
itself), while the hook awaits getUserMedia for the replacement camera — the
peer's single video sender carries the ended screen track: it is sending
neither the camera nor the screen, so there is an observable instant without
an active outbound video sender. -/
theorem videoSenderC8cex :
    senderSlotCount c8Mid "q" = 1 ∧ liveSenderCount c8Mid "q" = 0 ∧
    mapGet c8Mid.videoSenders "q" = some 2 ∧ aliveOf c8Mid 2 = false := by
  decide

/-- C8 amended: every peer that enters the screen-share round trip with one
live camera video sender keeps exactly one video sender slot at every
observable instant (the swap uses replaceTrack, never removing a sender), and
the sender carries the live camera before, the live screen track during the
share; but the stop swap is not gap-free: between the synchronous service
stop and the arrival of the freshly acquired camera track the sole sender
carries the ended screen track (zero live senders), and only after the stop
completes does it carry the live replacement camera track. -/
theorem videoSenderC8 (st : ShareSt) (p : String) (camId screenId newCamId : Nat)
    (hsend : mapGet st.videoSenders p = some camId)
    (huniq : countKey st.videoSenders p = 1)
    (halive : aliveOf st camId = true)
    (hlocal : st.localVideoTracks = [camId])
    (h1 : screenId ≠ camId) (h2 : newCamId ≠ screenId) :
    (senderSlotCount st p = 1 ∧ liveSenderCount st p = 1) ∧
    (senderSlotCount (shareTrace1 st screenId) p = 1 ∧
     mapGet (shareTrace1 st screenId).videoSenders p = some screenId ∧
     liveSenderCount (shareTrace1 st screenId) p = 1) ∧
    (senderSlotCount (shareTrace2 st screenId) p = 1 ∧
     mapGet (shareTrace2 st screenId).videoSenders p = some screenId ∧
     liveSenderCount (shareTrace2 st screenId) p = 1) ∧
    (senderSlotCount (shareTrace3 st screenId) p = 1 ∧
     mapGet (shareTrace3 st screenId).videoSenders p = some screenId ∧
     aliveOf (shareTrace3 st screenId) screenId = false ∧
     liveSenderCount (shareTrace3 st screenId) p = 0) ∧
    (senderSlotCount (shareTrace4 st screenId newCamId) p = 1 ∧
     mapGet (shareTrace4 st screenId newCamId).videoSenders p = some newCamId ∧
     liveSenderCount (shareTrace4 st screenId newCamId) p = 1) := by
  refine ⟨⟨?_, ?_⟩, ⟨?_, ?_, ?_⟩, ⟨?_, ?_, ?_⟩, ⟨?_, ?_, ?_, ?_⟩, ⟨?_, ?_, ?_⟩⟩
  · exact huniq
  · rw [liveSenderCount, liveCount_of_uniq st.videoSenders p camId (aliveOf st) hsend huniq,
      halive]
    simp
  all_goals
    simp [shareTrace1, shareTrace2, shareTrace3, shareTrace4, startSharePhase1,
      startShareSync, serviceStopScreenShare, stopShareSync, shareReplaceVideoTrack,
      senderSlotCount, liveSenderCount, aliveOf, hlocal, countKey_setAll,
      mapGet_setAll, hsend, huniq, liveCount_setAll2, mapGet_mapSet_self, mapGet_mapSet_ne,
      h1, h2, -List.map_map]

/-- C8 witness: the concrete one-peer round trip, live camera restored at the
end. -/
theorem videoSenderC8w :
    senderSlotCount (shareTrace4 c8St 2 3) "q" = 1 ∧
    mapGet (shareTrace4 c8St 2 3).videoSenders "q" = some 3 ∧
    liveSenderCount (shareTrace4 c8St 2 3) "q" = 1 :=
  (videoSenderC8 c8St "q" 1 2 3 rfl rfl rfl rfl (by decide) (by decide)).2.2.2.2

/-! ## Renegotiation and viewer-audio sinks -/

theorem renegotiate_effects (s : WState) (p : String) (pc : PC)
    (hpc : mapGet s.peerConnections p = some pc) (hcb : s.hasMessageCallback = true) :
    (renegotiate s p).sentMessages = s.sentMessages ++ [renegMsg p] ∧
    (mapGet (renegotiate s p).peerConnections p).isSome = true ∧
    (renegotiate s p).hasMessageCallback = true ∧
    (renegotiate s p).viewerAudioTracks = s.viewerAudioTracks := by
  simp [renegotiate, hpc, hcb, renegMsg, mapGet_mapSet_self]

theorem enableCore_effects (s : WState) (p : String) (tid : Nat) (pc1 : PC)
    (hcb : s.hasMessageCallback = true) :
    (renegotiate (enableCoreState s p tid pc1) p).sentMessages
        = s.sentMessages ++ [renegMsg p] ∧
    (mapGet (renegotiate (enableCoreState s p tid pc1) p).peerConnections p).isSome = true ∧
    (renegotiate (enableCoreState s p tid pc1) p).hasMessageCallback = true ∧
    mapGet (renegotiate (enableCoreState s p tid pc1) p).viewerAudioTracks p = some tid := by
  have h := renegotiate_effects (enableCoreState s p tid pc1) p pc1
    (mapGet_mapSet_self _ _ _) hcb
  refine ⟨h.1, h.2.1, h.2.2.1, ?_⟩
  rw [h.2.2.2]
  exact mapGet_mapSet_self _ _ _

theorem enable_effects (s : WState) (p : String) (tid : Nat) (pc : PC)
    (hpc : mapGet s.peerConnections p = some pc) (hcb : s.hasMessageCallback = true) :
    (enableViewerAudio s p tid).sentMessages = s.sentMessages ++ [renegMsg p] ∧
    (mapGet (enableViewerAudio s p tid).peerConnections p).isSome = true ∧
    (enableViewerAudio s p tid).hasMessageCallback = true ∧
    mapGet (enableViewerAudio s p tid).viewerAudioTracks p = some tid := by
  unfold enableViewerAudio
  rw [hpc]
  rcases hf : pc.transceivers.find? viewerAudioPred with _ | t
  · exact enableCore_effects s p tid _ hcb
  · by_cases ht : t.senderTrack = none
    · simp only [ht, if_pos rfl]
      exact enableCore_effects s p tid _ hcb
    · simp only [if_neg ht]
      exact enableCore_effects s p tid _ hcb

theorem disable_effects (s : WState) (p : String) (pc : PC) (tid : Nat)
    (hpc : mapGet s.peerConnections p = some pc)
    (htr : mapGet s.viewerAudioTracks p = some tid)
    (hcb : s.hasMessageCallback = true) :
    (disableViewerAudio s p).sentMessages = s.sentMessages ++ [renegMsg p] ∧
    (mapGet (disableViewerAudio s p).peerConnections p).isSome = true ∧
    (disableViewerAudio s p).hasMessageCallback = true := by
  unfold disableViewerAudio
  rw [hpc, htr]
  have h := renegotiate_effects
    { s with peerConnections := mapSet s.peerConnections p
               { pc with transceivers := clearSenderWithTrack pc.transceivers tid },
             viewerAudioTracks := mapDelete s.viewerAudioTracks p } p
    { pc with transceivers := clearSenderWithTrack pc.transceivers tid }
    (mapGet_mapSet_self _ _ _) hcb
  exact ⟨h.1, h.2.1, h.2.2.1⟩

theorem renegCount_snoc (u w : WState) (p : String)
    (h : u.sentMessages = w.sentMessages ++ [renegMsg p]) :
    renegCount u p = renegCount w p + 1 := by
  simp [renegCount, h, List.filter_append, renegMsg]

theorem domCount_map_src (dom : List DomElem) (p : String) (eid v : Nat) :
    ((dom.map (fun e => if e.eid = eid then { e with src := v } else e)).filter
        (fun e => e.peerTag = p)).length
      = (dom.filter (fun e => e.peerTag = p)).length := by
  induction dom with
  | nil => rfl
  | cons e rest ih =>
    by_cases h : e.eid = eid <;> by_cases h2 : e.peerTag = p <;>
      simp [List.filter_cons, h, h2, ih]

/-- C5 counterexample: the rapid enable/disable/enable sequence on one peer
sends three renegotiation offers (one per call — there is no in-flight guard
and no coalescing in renegotiate), not the single offer the claim
promises. -/
theorem renegOnceC5cex :
    renegCount c5Run "v" = 3 ∧ renegCount c5State "v" = 0 := by
  decide

/-- C5 amended: each enableViewerAudio / disableViewerAudio call on a
registered peer triggers exactly one renegotiation offer for that peer, so a
rapid enable/disable/enable sequence sends exactly three offers — nothing
limits renegotiations in flight or coalesces them.  The broadcaster-side
sink part of the claim does hold: the first inbound viewer-audio track
creates exactly one playback sink for the peer, and a later track event for
the same peer updates that sink in place rather than duplicating it. -/
theorem renegOnceC5 (s : WState) (p : String) (ta tb sa sb : Nat) (pc : PC)
    (hpc : mapGet s.peerConnections p = some pc)
    (hcb : s.hasMessageCallback = true)
    (hls : s.localStream.isSome = true)
    (hel : mapGet s.viewerAudioElements p = none)
    (hdom : domCountFor s p = 0) :
    renegCount (enableViewerAudio (disableViewerAudio (enableViewerAudio s p ta) p) p tb) p
      = renegCount s p + 3 ∧
    domCountFor (ontrackAudio s p (some sa)) p = 1 ∧
    domCountFor (ontrackAudio (ontrackAudio s p (some sa)) p (some sb)) p = 1 := by
  have hdom2 : (s.audioDom.filter (fun e => e.peerTag = p)).length = 0 := hdom
  obtain ⟨e1s, e1pc, e1cb, e1tr⟩ := enable_effects s p ta pc hpc hcb
  obtain ⟨pc2, hpc2⟩ := Option.isSome_iff_exists.mp e1pc
  obtain ⟨d1s, d1pc, d1cb⟩ :=
    disable_effects (enableViewerAudio s p ta) p pc2 ta hpc2 e1tr e1cb
  obtain ⟨pc3, hpc3⟩ := Option.isSome_iff_exists.mp d1pc
  obtain ⟨e2s, e2pc, e2cb, e2tr⟩ :=
    enable_effects (disableViewerAudio (enableViewerAudio s p ta) p) p tb pc3 hpc3 d1cb
  have ht1 : ontrackAudio s p (some sa)
      = { s with audioDom := s.audioDom ++ [{ eid := s.nextElemId, peerTag := p, src := sa }],
                 viewerAudioElements := mapSet s.viewerAudioElements p s.nextElemId,
                 nextElemId := s.nextElemId + 1 } := by
    simp [ontrackAudio, hls, hel]
  refine ⟨?_, ?_, ?_⟩
  · rw [renegCount_snoc _ _ p e2s, renegCount_snoc _ _ p d1s, renegCount_snoc _ _ p e1s]
  · rw [ht1]
    simp [domCountFor, List.filter_append, hdom2]
  · rw [ht1]
    simp only [ontrackAudio, hls, mapGet_mapSet_self]
    simp [domCountFor, domCount_map_src, List.filter_append, hdom2]

/-- C5 witness: the concrete session, three offers and one stable sink. -/
theorem renegOnceC5w :
    renegCount (enableViewerAudio (disableViewerAudio (enableViewerAudio c5State "v" 101) "v")
        "v" 102) "v" = renegCount c5State "v" + 3 ∧
    domCountFor (ontrackAudio c5State "v" (some 201)) "v" = 1 ∧
    domCountFor (ontrackAudio (ontrackAudio c5State "v" (some 201)) "v" (some 202)) "v" = 1 :=
  renegOnceC5 c5State "v" 101 102 201 202 c5PC rfl rfl rfl rfl rfl

/-! ## The ICE candidate queue and its flush -/

theorem addIce_fresh_queue (s : WState) (p : String) (c : IceCandidateInit) (pc : PC)
    (hpc : mapGet s.peerConnections p = some pc)
    (hrd : pc.remoteDescription = none)
    (hm : candidateFingerprint c ∉ (mapGet s.processedCandidates p).getD []) :
    addIceCandidate s p c =
      { s with
          processedCandidates := mapSet s.processedCandidates p
            ((mapGet s.processedCandidates p).getD [] ++ [candidateFingerprint c]),
          queuedIceCandidates := mapSet s.queuedIceCandidates p
            ((mapGet s.queuedIceCandidates p).getD [] ++ [c]) } := by
  simp only [addIceCandidate, hpc]
  rw [if_neg hm, if_pos hrd]

theorem optExtend_cons {α : Type} (o : Option (List α)) (c : α) (l : List α) :
    optExtend o (c :: l) = optExtend (some (o.getD [] ++ [c])) l := by
  cases l <;> cases o <;> simp [optExtend]

theorem optExtend_none_getD {α : Type} (l : List α) : (optExtend none l).getD [] = l := by
  cases l <;> simp [optExtend]

theorem addIce_fold (p : String) (cs : List IceCandidateInit) :
    ∀ (s : WState) (pc : PC),
      mapGet s.peerConnections p = some pc →
      pc.remoteDescription = none →
      (∀ c ∈ cs, candidateFingerprint c ∉ (mapGet s.processedCandidates p).getD []) →
      (cs.map candidateFingerprint).Nodup →
      (deliverAll s p cs).peerConnections = s.peerConnections ∧
      mapGet (deliverAll s p cs).queuedIceCandidates p
        = optExtend (mapGet s.queuedIceCandidates p) cs ∧
      mapGet (deliverAll s p cs).processedCandidates p
        = optExtend (mapGet s.processedCandidates p) (cs.map candidateFingerprint) := by
  induction cs with
  | nil =>
    intro s pc hpc hrd hfr hnd
    exact ⟨rfl, rfl, rfl⟩
  | cons c rest ih =>
    intro s pc hpc hrd hfr hnd
    rw [List.map_cons, List.nodup_cons] at hnd
    have hm : candidateFingerprint c ∉ (mapGet s.processedCandidates p).getD [] :=
      hfr c (List.mem_cons_self c rest)
    have hstep := addIce_fresh_queue s p c pc hpc hrd hm
    have hfold : deliverAll s p (c :: rest) = deliverAll (addIceCandidate s p c) p rest := rfl
    have h1pcs : (addIceCandidate s p c).peerConnections = s.peerConnections := by rw [hstep]
    have h1q : mapGet (addIceCandidate s p c).queuedIceCandidates p
        = some ((mapGet s.queuedIceCandidates p).getD [] ++ [c]) := by
      rw [hstep]
      exact mapGet_mapSet_self _ _ _
    have h1pr : mapGet (addIceCandidate s p c).processedCandidates p
        = some ((mapGet s.processedCandidates p).getD [] ++ [candidateFingerprint c]) := by
      rw [hstep]
      exact mapGet_mapSet_self _ _ _
    have h1pc : mapGet (addIceCandidate s p c).peerConnections p = some pc := by
      rw [h1pcs]
      exact hpc
    have hfr1 : ∀ c2 ∈ rest, candidateFingerprint c2
        ∉ (mapGet (addIceCandidate s p c).processedCandidates p).getD [] := by
      intro c2 hc2
      rw [h1pr]
      simp only [Option.getD_some, List.mem_append, List.mem_singleton]
      rintro (hin | heq)
      · exact hfr c2 (List.mem_cons_of_mem c hc2) hin
      · exact hnd.1 (heq ▸ List.mem_map_of_mem candidateFingerprint hc2)
    obtain ⟨ihA, ihB, ihC⟩ := ih (addIceCandidate s p c) pc h1pc hrd hfr1 hnd.2
    refine ⟨?_, ?_, ?_⟩
    · rw [hfold, ihA, h1pcs]
    · rw [hfold, ihB, h1q, optExtend_cons]
    · rw [hfold, ihC, h1pr, List.map_cons, optExtend_cons]

theorem flush_after_set (s1 : WState) (p : String) (pc1 : PC) (q : List IceCandidateInit)
    (hpc : mapGet s1.peerConnections p = some pc1)
    (hrdSet : ¬ pc1.remoteDescription = none)
    (hq : mapGet s1.queuedIceCandidates p = optExtend none q) :
    ∃ pc2, mapGet (processQueuedIceCandidates s1 p).peerConnections p = some pc2 ∧
      pc2.appliedCandidates = pc1.appliedCandidates ++ q ∧
      mapGet (processQueuedIceCandidates s1 p).queuedIceCandidates p = none := by
  cases q with
  | nil =>
    have hq0 : mapGet s1.queuedIceCandidates p = none := hq
    refine ⟨pc1, ?_, by simp, ?_⟩
    · unfold processQueuedIceCandidates
      rw [hq0]
      exact hpc
    · unfold processQueuedIceCandidates
      rw [hq0]
      exact hq0
  | cons c0 rest0 =>
    have hq1 : mapGet s1.queuedIceCandidates p = some (c0 :: rest0) := by
      simpa [optExtend] using hq
    refine ⟨{ pc1 with appliedCandidates := pc1.appliedCandidates ++ (c0 :: rest0) },
      ?_, rfl, ?_⟩
    · unfold processQueuedIceCandidates
      rw [hq1]
      simp only [reduceCtorEq, if_false, hpc, if_neg hrdSet]
      exact mapGet_mapSet_self _ _ _
    · unfold processQueuedIceCandidates
      rw [hq1]
      simp only [reduceCtorEq, if_false, hpc, if_neg hrdSet]
      exact mapGet_mapDelete_self _ _

theorem handleAnswer_flush (s1 : WState) (p : String) (pc1 : PC) (ans : String)
    (q : List IceCandidateInit)
    (hpc : mapGet s1.peerConnections p = some pc1)
    (hsig : pc1.signalingState = SigState.haveLocalOffer)
    (hq : mapGet s1.queuedIceCandidates p = optExtend none q) :
    (handleAnswer s1 p ans).2 = AnswerOutcome.ok ∧
    (∃ pc3, mapGet (handleAnswer s1 p ans).1.peerConnections p = some pc3 ∧
      pc3.appliedCandidates = pc1.appliedCandidates ++ q) ∧
    mapGet (handleAnswer s1 p ans).1.queuedIceCandidates p = none := by
  obtain ⟨pc2, hg, happ, hqn⟩ := flush_after_set
    { s1 with peerConnections := mapSet s1.peerConnections p
                  { pc1 with remoteDescription := some ans, signalingState := SigState.stable } }
    p { pc1 with remoteDescription := some ans, signalingState := SigState.stable } q
    (mapGet_mapSet_self _ _ _) (by simp) hq
  refine ⟨?_, ⟨pc2, ?_, happ⟩, ?_⟩
  · unfold handleAnswer
    simp only [hpc]
    rw [if_pos hsig]
  · unfold handleAnswer
    simp only [hpc]
    rw [if_pos hsig]
    exact hg
  · unfold handleAnswer
    simp only [hpc]
    rw [if_pos hsig]
    exact hqn

theorem createAnswer_stable (s1 : WState) (p : String) (pc1 : PC) (offer : String)
    (q : List IceCandidateInit)
    (hpc : mapGet s1.peerConnections p = some pc1)
    (hsig : pc1.signalingState = SigState.stable)
    (hq : mapGet s1.queuedIceCandidates p = optExtend none q) :
    (createAnswer s1 p offer).2 = CreateAnswerOutcome.ok ∧
    (∃ pc3, mapGet (createAnswer s1 p offer).1.peerConnections p = some pc3 ∧
      pc3.appliedCandidates = pc1.appliedCandidates ++ q) ∧
    mapGet (createAnswer s1 p offer).1.queuedIceCandidates p = none := by
  obtain ⟨pc2, hg, happ, hqn⟩ := flush_after_set
    { s1 with peerConnections := mapSet s1.peerConnections p
                  { pc1 with remoteDescription := some offer,
                             signalingState := SigState.haveRemoteOffer } }
    p { pc1 with remoteDescription := some offer, signalingState := SigState.haveRemoteOffer } q
    (mapGet_mapSet_self _ _ _) (by simp) hq
  refine ⟨?_, ⟨{ pc2 with localDescription := some "answer", signalingState := SigState.stable },
      ?_, happ⟩, ?_⟩
  · unfold createAnswer
    simp only [hpc]
    rw [if_neg (by rw [hsig]; decide), if_neg (by rw [hsig]; decide), if_pos hsig]
    simp only [hg]
  · unfold createAnswer
    simp only [hpc]
    rw [if_neg (by rw [hsig]; decide), if_neg (by rw [hsig]; decide), if_pos hsig]
    simp only [hg]
    exact mapGet_mapSet_self _ _ _
  · unfold createAnswer
    simp only [hpc]
    rw [if_neg (by rw [hsig]; decide), if_neg (by rw [hsig]; decide), if_pos hsig]
    simp only [hg]
    exact hqn

/-- C1: for a peer whose remote description is not yet set, a sequence of
distinct candidates delivered through addIceCandidate is queued in arrival
order and nothing is applied; then, in handleAnswer (from have-local-offer)
or createAnswer (from stable), immediately after the remote description is
set the whole queue is handed to the native addIceCandidate in original
arrival order, appended exactly once each to the connection's applied
sequence, and the queue entry for the peer is cleared.  (Candidates with a
repeated fingerprint are dropped at delivery, see the dedup claim.) -/
theorem iceQueueFlushC1 (s : WState) (p : String) (pc : PC) (cs : List IceCandidateInit)
    (ans offer : String)
    (hpc : mapGet s.peerConnections p = some pc)
    (hrd : pc.remoteDescription = none)
    (hq : mapGet s.queuedIceCandidates p = none)
    (hproc : mapGet s.processedCandidates p = none)
    (hnodup : (cs.map candidateFingerprint).Nodup) :
    (mapGet (deliverAll s p cs).queuedIceCandidates p).getD [] = cs ∧
    (deliverAll s p cs).peerConnections = s.peerConnections ∧
    (pc.signalingState = SigState.haveLocalOffer →
      (handleAnswer (deliverAll s p cs) p ans).2 = AnswerOutcome.ok ∧
      (∃ pc2, mapGet (handleAnswer (deliverAll s p cs) p ans).1.peerConnections p = some pc2 ∧
        pc2.appliedCandidates = pc.appliedCandidates ++ cs) ∧
      mapGet (handleAnswer (deliverAll s p cs) p ans).1.queuedIceCandidates p = none) ∧
    (pc.signalingState = SigState.stable →
      (createAnswer (deliverAll s p cs) p offer).2 = CreateAnswerOutcome.ok ∧
      (∃ pc2, mapGet (createAnswer (deliverAll s p cs) p offer).1.peerConnections p = some pc2 ∧
        pc2.appliedCandidates = pc.appliedCandidates ++ cs) ∧
      mapGet (createAnswer (deliverAll s p cs) p offer).1.queuedIceCandidates p = none) := by
  have hfr : ∀ c ∈ cs, candidateFingerprint c ∉ (mapGet s.processedCandidates p).getD [] := by
    rw [hproc]
    simp
  obtain ⟨hA, hB, hC⟩ := addIce_fold p cs s pc hpc hrd hfr hnodup
  have hApc : mapGet (deliverAll s p cs).peerConnections p = some pc := by
    rw [hA]
    exact hpc
  have hAq : mapGet (deliverAll s p cs).queuedIceCandidates p = optExtend none cs := by
    rw [hB, hq]
  refine ⟨?_, hA, ?_, ?_⟩
  · rw [hAq]
    exact optExtend_none_getD cs
  · intro hsig
    exact handleAnswer_flush (deliverAll s p cs) p pc ans cs hApc hsig hAq
  · intro hsig
    exact createAnswer_stable (deliverAll s p cs) p pc offer cs hApc hsig hAq

/-- C1 witness: two concrete candidates delivered early are queued in order
and flushed exactly once by the concrete answer. -/
theorem iceQueueFlushC1w :
    (mapGet (deliverAll c1State "p" c1Cands).queuedIceCandidates "p").getD [] = c1Cands ∧
    (handleAnswer (deliverAll c1State "p" c1Cands) "p" "ans").2 = AnswerOutcome.ok ∧
    mapGet (handleAnswer (deliverAll c1State "p" c1Cands) "p"
      "ans").1.queuedIceCandidates "p" = none := by
  have h := iceQueueFlushC1 c1State "p" c1PC c1Cands "ans" "off" rfl rfl rfl rfl (by decide)
  exact ⟨h.1, (h.2.2.1 rfl).1, (h.2.2.1 rfl).2.2⟩

end WebRTC
